import Mathlib

/-
  Verification development for the SUAVE battery charge model
  (trunk/SUAVE/Methods/Power/Battery/Charge_Models/LiNiMnCo_charge.py).

  Shallow embedding conventions:
  * A numpy 1-d float array is a `List ℚ`; finite float values are modelled
    by exact rationals (real-arithmetic idealization of IEEE arithmetic).
  * Where NaN behaviour matters (the energy-delta sanitization of lines
    221-228) floats are modelled by the type `FP` below, with IEEE rules:
    NaN propagates through arithmetic, every ordered comparison with NaN
    is false, and NaN is truthy.
  * The integration operator `numerics.time.integrate` is an arbitrary
    matrix `List (List ℚ)`; `np.dot` is `matVec`.
-/

namespace SUAVE

/-- A floating-point value: either NaN or a finite value (modelled as ℚ). -/
inductive FP where
  | nan : FP
  | fin (q : ℚ) : FP
deriving DecidableEq, Repr

namespace FP

/-- `np.isnan` on a scalar. -/
def isNan : FP → Bool
  | .nan => true
  | .fin _ => false

/-- Python truthiness of a float: NaN is truthy, 0.0 is falsy. -/
def truthy : FP → Bool
  | .nan => true
  | .fin q => decide (q ≠ 0)

/-- IEEE multiplication restricted to NaN/finite values: NaN propagates. -/
def mul : FP → FP → FP
  | .nan, _ => .nan
  | _, .nan => .nan
  | .fin a, .fin b => .fin (a * b)

/-- IEEE addition restricted to NaN/finite values: NaN propagates. -/
def add : FP → FP → FP
  | .nan, _ => .nan
  | _, .nan => .nan
  | .fin a, .fin b => .fin (a + b)

/-- IEEE `>`: any comparison involving NaN is false. -/
def gt : FP → FP → Bool
  | .nan, _ => false
  | _, .nan => false
  | .fin a, .fin b => decide (b < a)

/-- Binary step of `np.max` reduction (`np.maximum` semantics used by
`np.max`: NaN propagates through the reduction). -/
def max2 : FP → FP → FP
  | .nan, _ => .nan
  | _, .nan => .nan
  | .fin a, .fin b => .fin (max a b)

end FP

/-- `np.max` over a 1-d array: reduction by `FP.max2`; NaN in the input
makes the result NaN (numpy's `np.max`, unlike `np.nanmax`). -/
def npMax : List FP → FP
  | [] => .nan
  | x :: xs => xs.foldl FP.max2 x

/-- `np.isnan(arr).any()`. -/
def npIsnanAny (xs : List FP) : Bool := xs.any FP.isNan

/-- `arr.any()`: numpy truthiness-based any over the array. -/
def npAny (xs : List FP) : Bool := xs.any FP.truthy

/-- `np.isnan` applied to a Python/numpy bool: the bool converts to the
float 0.0 or 1.0, neither of which is NaN, so the result is always false. -/
def npIsnanOfBool (_ : Bool) : Bool := false

/-- Lines 221-224: the NaN sanitization of the integrated energy delta.

```
if np.isnan(E_bat).any():
    E_bat=np.ones_like(E_bat)*np.max(E_bat)
    if np.isnan(E_bat.any()): #all nans; handle this instance
        E_bat = np.zeros_like(E_bat)
```
-/
def sanitize_E_bat (E_bat : List FP) : List FP :=
  if npIsnanAny E_bat then
    let E1 := E_bat.map (fun _ => FP.mul (FP.fin 1) (npMax E_bat))
    if npIsnanOfBool (npAny E1) then E_bat.map (fun _ => FP.fin 0) else E1
  else E_bat

/-- Lines 221-228: sanitize the energy delta, add the prior segment's final
energy `E_current[0]`, and clamp above at `E_max`:

```
E_current = E_bat + E_current[0]
E_current[E_current>E_max] = E_max
```
-/
def E_current_update (E_bat : List FP) (E_current0 E_max : FP) : List FP :=
  let E1 := (sanitize_E_bat E_bat).map (fun x => FP.add x E_current0)
  E1.map (fun x => if FP.gt x E_max then E_max else x)

/-- `np.dot` of a row with a vector. -/
def dotQ (r v : List ℚ) : ℚ := (List.zipWith (· * ·) r v).sum

/-- `np.dot` of the integration-operator matrix with a sampled vector. -/
def matVec (M : List (List ℚ)) (v : List ℚ) : List ℚ := M.map (fun r => dotQ r v)

/-- The repeated masked-assignment idiom
`x[x < 0.] = 0.` followed by `x[x > 1.] = 1.`. -/
def clamp01 (xs : List ℚ) : List ℚ :=
  (xs.map (fun x => if x < 0 then 0 else x)).map (fun x => if 1 < x then 1 else x)

/-- Lines 105-110: provisional state of charge.

```
initial_discharge_state = np.dot(I,P_bat) + E_current[0]
SOC_old =  np.divide(initial_discharge_state,E_max)
SOC_old[SOC_old < 0.] = 0.
SOC_old[SOC_old > 1.] = 1.
```
-/
def SOC_old_def (Imat : List (List ℚ)) (P_bat : List ℚ) (E_current0 E_max : ℚ) :
    List ℚ :=
  let initial_discharge_state := (matVec Imat P_bat).map (fun x => x + E_current0)
  clamp01 (initial_discharge_state.map (fun x => x / E_max))

/-- Numpy broadcast `1 - arr` (used for both DOD computations). -/
def np_one_sub (xs : List ℚ) : List ℚ := xs.map (fun x => 1 - x)

/-- Line 111: `DOD_old = 1 - SOC_old`. -/
def DOD_old_def (Imat : List (List ℚ)) (P_bat : List ℚ) (E_current0 E_max : ℚ) :
    List ℚ :=
  np_one_sub (SOC_old_def Imat P_bat E_current0 E_max)

/-- Lines 231-233: final state of charge from the updated energy vector.

```
SOC_new = np.divide(E_current, E_max)
SOC_new[SOC_new<0] = 0.
SOC_new[SOC_new>1] = 1.
```
-/
def SOC_new_def (E_current : List ℚ) (E_max : ℚ) : List ℚ :=
  clamp01 (E_current.map (fun x => x / E_max))

/-- Line 234: `DOD_new = 1 - SOC_new`. -/
def DOD_new_def (E_current : List ℚ) (E_max : ℚ) : List ℚ :=
  np_one_sub (SOC_new_def E_current E_max)

/-- Line 211: `V_oc = V_ul + V_Th + (I_cell * R_0_aged)` (elementwise), where
`V_ul` is the sample looked up from the discharge performance map (line 189). -/
def V_oc_def (V_ul V_Th I_cell R_0_aged : List ℚ) : List ℚ :=
  List.zipWith (· + ·) (List.zipWith (· + ·) V_ul V_Th)
    (List.zipWith (· * ·) I_cell R_0_aged)

/-- Line 241: `V_ul[SOC_new < 0.] = 0.` — masked zeroing of the map sample. -/
def V_ul_masked (V_ul SOC_new : List ℚ) : List ℚ :=
  List.zipWith (fun v s => if s < 0 then 0 else v) V_ul SOC_new

/-- Line 262: `battery.voltage_under_load = V_ul*n_series` (after the
line-241 masking). -/
def voltage_under_load_def (V_ul SOC_new : List ℚ) (n_series : ℚ) : List ℚ :=
  (V_ul_masked V_ul SOC_new).map (fun v => v * n_series)

/-- Line 252: `battery.voltage_open_circuit = V_oc*n_series`. -/
def voltage_open_circuit_def (V_ul V_Th I_cell R_0_aged : List ℚ) (n_series : ℚ) :
    List ℚ :=
  (V_oc_def V_ul V_Th I_cell R_0_aged).map (fun v => v * n_series)

/-- Python's builtin `all` applied to a numpy float array: true iff every
entry is truthy (nonzero). -/
def pyAll (xs : List ℚ) : Bool := xs.all (fun x => decide (x ≠ 0))

/-- A Python bool used in an arithmetic comparison converts to 1.0/0.0. -/
def pyBoolFloat (b : Bool) : ℚ := if b then 1 else 0

/-- Line 162: the branch condition `all(Re_max) > 10E2`.  Python evaluates
`all(Re_max)` to a bool first, then compares that bool (as 0 or 1) with
the float `10E2 = 1000.0`. -/
def turbulent_selected (Re_max : List ℚ) : Bool :=
  decide ((1000 : ℚ) < pyBoolFloat (pyAll Re_max))

/-- Lines 162-167: the exponent constant `m` of the convective correlation
(`m = 0.6` in the turbulent branch, `m = 0.5` in the laminar branch). -/
def corr_m (Re_max : List ℚ) : ℚ :=
  if turbulent_selected Re_max then 0.6 else 0.5

/-- Which correlation-constant pair lines 162-167 select:
turbulent means `C = 0.35*(S_T/S_L)**0.2, m = 0.6`;
laminar means `C = 0.51, m = 0.5`. -/
inductive CorrBranch where
  | turbulent : CorrBranch
  | laminar : CorrBranch
deriving DecidableEq, Repr

/-- Lines 162-167 as a branch selection. -/
def corr_branch (Re_max : List ℚ) : CorrBranch :=
  if turbulent_selected Re_max then .turbulent else .laminar

/-- Line 102: `I_cell = -I_bat/n_parallel`. -/
def I_cell_def (I_bat : List ℚ) (n_parallel : ℚ) : List ℚ :=
  I_bat.map (fun x => -x / n_parallel)

/-- Lines 183-184: `I_cell[I_cell<0.0] = 0.0` then `I_cell[I_cell>8.0] = 8.0`. -/
def clamp_I_cell (I_cell : List ℚ) : List ℚ :=
  (I_cell.map (fun x => if x < 0 then 0 else x)).map (fun x => if 8 < x then 8 else x)

/-- The per-interval trapezoid areas `(x[i+1]-x[i])*(y[i]+y[i+1])/2` used by
`scipy.integrate.cumtrapz`; first argument is the abscissa `x`, second the
integrand `y`. -/
def trapzIncs : List ℚ → List ℚ → List ℚ
  | t0 :: t1 :: ts, f0 :: f1 :: fs =>
      (t1 - t0) * (f0 + f1) / 2 :: trapzIncs (t1 :: ts) (f1 :: fs)
  | _, _ => []

/-- Cumulative sums starting from an accumulator. -/
def cumsumFrom (acc : ℚ) : List ℚ → List ℚ
  | [] => []
  | x :: xs => (acc + x) :: cumsumFrom (acc + x) xs

/-- `scipy.integrate.cumtrapz(y, x)`: cumulative trapezoid integral, one
entry per interval (length `n-1` for `n` samples). -/
def cumtrapz (y x : List ℚ) : List ℚ := cumsumFrom 0 (trapzIncs x y)

/-- Line 237: cumulative cell charge throughput,
`hstack(( Q_prior[0] , Q_prior[0] + cumtrapz(I_cell[:,0], x = t)/Units.hr ))`
with `Units.hr = 3600`. -/
def Q_total_def (Q_prior0 : ℚ) (I_cell : List ℚ) (t : List ℚ) : List ℚ :=
  Q_prior0 :: (cumtrapz I_cell t).map (fun q => Q_prior0 + q / 3600)

/-- Lines 113-114: the masked clamp of the input cell temperature,
`T_cell[T_cell<272.65] = 272.65` then `T_cell[T_cell>322.65] = 322.65`. -/
def T_cell_clamp (T_cell : List ℚ) : List ℚ :=
  (T_cell.map (fun x => if x < 272.65 then 272.65 else x)).map
    (fun x => if 322.65 < x then 322.65 else x)

/-- Lines 123-124: the entropy-coefficient polynomial fit in SOC. -/
def delta_S_def (soc : ℚ) : ℚ :=
  -496.66 * soc ^ 6 + 1729.4 * soc ^ 5 + -2278 * soc ^ 4 + 1382.2 * soc ^ 3 +
    -380.47 * soc ^ 2 + 46.508 * soc + -10.692

/-- The battery fields consumed by the thermal part of `LiNiMnCo_charge`
(unpacked at lines 72-101). -/
structure Battery where
  I_bat : List ℚ
  P_bat : List ℚ
  cell_mass : ℚ
  electrode_area : ℚ
  Cp : ℚ
  h : ℚ
  As_cell : ℚ
  T_ambient : ℚ
  T_cell : List ℚ
  T_current0 : ℚ
  E_max : ℚ
  E_current0 : ℚ
  n_series : ℚ
  n_parallel : ℚ
  Nn : ℚ
  Np : ℚ

/-- Lines 104-177 of `LiNiMnCo_charge`, single-cell branch (`n_total == 1`,
line 134): the cell-temperature update.  Computes the provisional SOC, the
clamped input cell temperature, heat generation (joule + entropy terms,
`sigma = 139`, `n = 1`, `F = 96485`), the lumped convective loss
`Q_convec = h*As_cell*(T_cell - T_ambient)`, the net thermal power, and
finally `T_current = T_current[0] + np.dot(I, dT_dt)`.  Note lines 176-177
apply no clamp to the updated temperature. -/
def T_update_lumped (b : Battery) (Imat : List (List ℚ)) : List ℚ :=
  let SOC_old := SOC_old_def Imat b.P_bat b.E_current0 b.E_max
  let T_cell := T_cell_clamp b.T_cell
  let n_total := b.n_series * b.n_parallel
  let n_total_module := b.Nn * b.Np
  let I_cell := I_cell_def b.I_bat b.n_parallel
  let i_cell := I_cell.map (fun x => x / b.electrode_area)
  let ds := SOC_old.map delta_S_def
  let q_dot_entropy := List.zipWith3 (fun Tc d ic => -Tc * d * ic / (1 * 96485))
    T_cell ds i_cell
  let q_dot_joule := i_cell.map (fun ic => ic ^ 2 / 139)
  let Q_heat_gen := (List.zipWith (· + ·) q_dot_joule q_dot_entropy).map
    (fun q => q * b.As_cell)
  let Q_convec := T_cell.map (fun Tc => b.h * b.As_cell * (Tc - b.T_ambient))
  let P_net := (List.zipWith (· - ·) Q_heat_gen Q_convec).map (fun p => p * n_total)
  let dT_dt := P_net.map (fun p => p / (b.cell_mass * n_total_module * b.Cp))
  (matVec Imat dT_dt).map (fun x => b.T_current0 + x)

/-- Lines 282-285 define `model`, the right-hand side
`dVth_dt = I_cell/C_Th - V_th/(R_Th*C_Th)` of the Thevenin ODE.  The scipy
library call `odeint(model, V0, t, args=(I, C, R))` (an external solver, not
repository code) is represented by the exact solution of this linear
constant-coefficient ODE started at `V(t0) = V0`; `odeint_sample V0 I C R t0 t1`
is the entry `z[1]` of the returned array, i.e. the solution at time `t1`. -/
noncomputable def odeint_sample (V0 I C R t0 t1 : ℝ) : ℝ :=
  I * R + (V0 - I * R) * Real.exp (-((t1 - t0) / (R * C)))

/-- Lines 268-280:

```
def compute_thevenin_votlage(V_th0,I_cell,C_Th, R_Th, numerics):
    t = numerics.time.control_points[:,0]
    n = len(t)
    x = np.zeros(n)
    x[0] = V_th0
    for i in range(1,n):
        z = odeint(model, V_th0, t, args=(I_cell[i][0],C_Th[i][0], R_Th[i][0]))
        z0 = z[1]
        x[i] = z0[0]
    return np.atleast_2d(x).T
```

Every loop iteration integrates from `V_th0` at `t[0]` but keeps `z[1]`, the
solution at the second time point `t[1]`, regardless of `i`. -/
noncomputable def compute_thevenin_votlage (V_th0 : ℝ) (I_cell C_Th R_Th : List ℝ)
    (t : List ℝ) : List ℝ :=
  (List.range t.length).map fun i =>
    if i = 0 then V_th0
    else odeint_sample V_th0 (I_cell.getD i 0) (C_Th.getD i 0) (R_Th.getD i 0)
      (t.getD 0 0) (t.getD 1 0)

end SUAVE

namespace SUAVE

/-- Entries produced by the two masked clamp assignments of `clamp01`
always lie in [0,1]. -/
theorem clamp01_mem (xs : List ℚ) : ∀ v ∈ clamp01 xs, 0 ≤ v ∧ v ≤ 1 := by
  intro v hv
  simp only [clamp01, List.map_map, List.mem_map, Function.comp] at hv
  obtain ⟨x, -, rfl⟩ := hv
  by_cases h1 : x < 0
  · norm_num [h1]
  · by_cases h2 : 1 < x
    · norm_num [h1, h2]
    · simp only [h1, h2, if_false]
      exact ⟨le_of_not_lt h1, le_of_not_lt h2⟩

/-- `1 - v` maps [0,1] into [0,1]. -/
theorem np_one_sub_mem (xs : List ℚ) (h : ∀ v ∈ xs, 0 ≤ v ∧ v ≤ 1) :
    ∀ v ∈ np_one_sub xs, 0 ≤ v ∧ v ≤ 1 := by
  intro v hv
  simp only [np_one_sub, List.mem_map] at hv
  obtain ⟨x, hx, rfl⟩ := hv
  obtain ⟨h0, h1⟩ := h x hx
  constructor <;> linarith

/-- Pointwise value of the broadcast `1 - arr`. -/
theorem np_one_sub_getD (xs : List ℚ) (i : ℕ) (hi : i < xs.length) :
    (np_one_sub xs).getD i 0 = 1 - xs.getD i 0 := by
  have hi' : i < (np_one_sub xs).length := by simpa [np_one_sub] using hi
  rw [List.getD_eq_getElem _ _ hi', List.getD_eq_getElem _ _ hi]
  simp [np_one_sub]

/-- On an all-finite energy vector the sanitization step is the identity. -/
theorem sanitize_E_bat_finite (E : List ℚ) :
    sanitize_E_bat (E.map FP.fin) = E.map FP.fin := by
  simp [sanitize_E_bat, npIsnanAny, List.any_map, Function.comp, FP.isNan]

/-- C1: evaluating the NaN energy-delta sanitization (lines 221-224) at an
energy-delta vector that is NaN at one collocation point and finite (1.0) at
the other.  Because `np.max` (unlike `np.nanmax`) propagates NaN, the
"sanitized" vector is all NaN — not the finite maximum the claim states — and
the updated `current_energy` is all NaN as well; the all-NaN guard
`np.isnan(E_bat.any())` tests a bool and never fires, so an all-NaN input also
stays all NaN instead of becoming zeros. -/
theorem C1_nan_sanitize_code_eval :
    sanitize_E_bat [FP.fin 1, FP.nan] = [FP.nan, FP.nan] ∧
    E_current_update [FP.fin 1, FP.nan] (FP.fin 0) (FP.fin 10) = [FP.nan, FP.nan] ∧
    sanitize_E_bat [FP.nan, FP.nan] = [FP.nan, FP.nan] := by
  refine ⟨?_, ?_, ?_⟩ <;>
    simp [sanitize_E_bat, E_current_update, npIsnanAny, npIsnanOfBool, npMax,
      FP.isNan, FP.mul, FP.max2, FP.add, FP.gt]

/-- C4 counterexample: with energy delta −10 J, prior energy 5 J and
`max_energy = 100` J, lines 226-228 produce `current_energy = [−5]`, which is
below the lower bound 0 the claim asserts — there is no lower clamp. -/
theorem C4_counterexample :
    E_current_update [FP.fin (-10)] (FP.fin 5) (FP.fin 100) = [FP.fin (-5)] ∧
    (-5 : ℚ) < 0 := by
  constructor
  · norm_num [E_current_update, sanitize_E_bat, npIsnanAny, FP.isNan, FP.add, FP.gt]
  · norm_num

/-- C4 (amended): for every finite input, the updated `current_energy` of
lines 226-228 is finite and clamped to the upper bound `max_energy` only;
no lower clamp at 0 is applied. -/
theorem C4_energy_upper_clamp (E_bat : List ℚ) (e0 emax : ℚ) :
    ∀ x ∈ E_current_update (E_bat.map FP.fin) (FP.fin e0) (FP.fin emax),
      ∃ q : ℚ, x = FP.fin q ∧ q ≤ emax := by
  intro x hx
  simp only [E_current_update, sanitize_E_bat_finite, List.map_map, List.mem_map,
    Function.comp] at hx
  obtain ⟨q, -, rfl⟩ := hx
  simp only [FP.add, FP.gt]
  by_cases h : emax < q + e0
  · refine ⟨emax, ?_, le_refl emax⟩
    simp [h]
  · refine ⟨q + e0, ?_, le_of_not_lt h⟩
    simp [h]

/-- C4 witness: the amended upper-clamp theorem applied at the concrete
input `E_bat = [1]`, prior energy 2, `max_energy` 100. -/
theorem C4_energy_upper_clamp_witness :
    ∃ q : ℚ, FP.fin 3 = FP.fin q ∧ q ≤ (100 : ℚ) :=
  C4_energy_upper_clamp [1] 2 100 (FP.fin 3)
    (by norm_num [E_current_update, sanitize_E_bat, npIsnanAny, FP.isNan, FP.add, FP.gt])

/-- C7: both the provisional (lines 105-111) and the final (lines 231-234)
state of charge and depth of discharge lie in [0,1] at every collocation
point, for any integration operator, power series, prior energy, maximum
energy and updated energy vector. -/
theorem C7_soc_dod_bounds (Imat : List (List ℚ)) (P_bat : List ℚ)
    (E_current0 E_max : ℚ) (E_current : List ℚ) :
    (∀ v ∈ SOC_old_def Imat P_bat E_current0 E_max, 0 ≤ v ∧ v ≤ 1) ∧
    (∀ v ∈ DOD_old_def Imat P_bat E_current0 E_max, 0 ≤ v ∧ v ≤ 1) ∧
    (∀ v ∈ SOC_new_def E_current E_max, 0 ≤ v ∧ v ≤ 1) ∧
    (∀ v ∈ DOD_new_def E_current E_max, 0 ≤ v ∧ v ≤ 1) := by
  refine ⟨?_, ?_, ?_, ?_⟩
  · exact clamp01_mem _
  · exact np_one_sub_mem _ (clamp01_mem _)
  · exact clamp01_mem _
  · exact np_one_sub_mem _ (clamp01_mem _)

/-- C7 witness: the bounds theorem applied at a concrete input whose raw
provisional SOC (5) and raw final SOC (3) both exceed 1, and whose clamped
values are 1 (so DOD is 0). -/
theorem C7_soc_dod_bounds_witness :
    ((0 : ℚ) ≤ 1 ∧ (1 : ℚ) ≤ 1) ∧ ((0 : ℚ) ≤ 0 ∧ (0 : ℚ) ≤ 1) :=
  ⟨(C7_soc_dod_bounds [[1]] [5] 0 1 [3]).1 1
      (by norm_num [SOC_old_def, clamp01, matVec, dotQ]),
    (C7_soc_dod_bounds [[1]] [5] 0 1 [3]).2.2.2 0
      (by norm_num [DOD_new_def, np_one_sub, SOC_new_def, clamp01])⟩

/-- C9: the depth of discharge computed at line 111 (resp. line 234) equals
exactly `1 - SOC` of the clamped provisional (resp. final) state of charge,
at every collocation point. -/
theorem C9_dod_eq_one_sub_soc (Imat : List (List ℚ)) (P_bat : List ℚ)
    (E_current0 E_max : ℚ) (E_current : List ℚ) (i j : ℕ)
    (hi : i < (SOC_old_def Imat P_bat E_current0 E_max).length)
    (hj : j < (SOC_new_def E_current E_max).length) :
    (DOD_old_def Imat P_bat E_current0 E_max).getD i 0 =
      1 - (SOC_old_def Imat P_bat E_current0 E_max).getD i 0 ∧
    (DOD_new_def E_current E_max).getD j 0 =
      1 - (SOC_new_def E_current E_max).getD j 0 :=
  ⟨np_one_sub_getD _ i hi, np_one_sub_getD _ j hj⟩

/-- C3 counterexample: a single-cell battery with heat-transfer coefficient 0
and a large cell current (1390 A through a 1 m² electrode) heats from an input
cell temperature of 300 K (inside every band in question) to an output
temperature far above 322.15 K — lines 176-177 apply no clamp after the
update.  In addition, the clamp of lines 113-114 moves the value 272.3 K,
which lies inside the claimed band [272.15 K, 322.15 K], up to 272.65 K: the
configured band is [272.65 K, 322.65 K], not [272.15 K, 322.15 K]. -/
theorem C3_counterexample :
    (322.15 : ℚ) <
      (T_update_lumped
        { I_bat := [-1390], P_bat := [0], cell_mass := 1, electrode_area := 1,
          Cp := 1, h := 0, As_cell := 1, T_ambient := 300, T_cell := [300],
          T_current0 := 300, E_max := 1, E_current0 := 0, n_series := 1,
          n_parallel := 1, Nn := 1, Np := 1 } [[1]]).getD 0 0 ∧
    T_cell_clamp [272.3] = [272.65] := by
  constructor
  · norm_num [T_update_lumped, SOC_old_def, clamp01, matVec, dotQ, T_cell_clamp,
      I_cell_def, delta_S_def, List.zipWith3]
  · norm_num [T_cell_clamp]

/-- C3 (amended): the model clamps the *input* cell temperature into
[272.65 K, 322.65 K] (lines 113-114) before the polynomial fits; the
temperature produced by the update step is not clamped. -/
theorem C3_input_temperature_clamp (T_cell : List ℚ) :
    ∀ v ∈ T_cell_clamp T_cell, 272.65 ≤ v ∧ v ≤ 322.65 := by
  intro v hv
  simp only [T_cell_clamp, List.map_map, List.mem_map, Function.comp] at hv
  obtain ⟨x, -, rfl⟩ := hv
  by_cases h1 : x < 272.65
  · rw [if_pos h1]
    norm_num
  · rw [if_neg h1]
    by_cases h2 : (322.65 : ℚ) < x
    · rw [if_pos h2]
      norm_num
    · rw [if_neg h2]
      exact ⟨le_of_not_lt h1, le_of_not_lt h2⟩

/-- C3 witness: the input-temperature clamp theorem applied at 300 K. -/
theorem C3_input_temperature_clamp_witness :
    (272.65 : ℚ) ≤ 300 ∧ (300 : ℚ) ≤ 322.65 :=
  C3_input_temperature_clamp [300] 300 (by norm_num [T_cell_clamp])

/-- C5: the condition of line 162 is `all(Re_max) > 10E2`, which compares the
*bool* `all(Re_max)` (0.0 or 1.0 as a float) against 1000.0 and is therefore
false for every Reynolds-number vector: the turbulent constants are never
selected, even when every per-point Reynolds number exceeds 10³ (e.g.
`Re_max = [2000, 3000]`), where the laminar constants C = 0.51, m = 0.5 are
used instead. -/
theorem C5_reynolds_branch_code_eval :
    (∀ Re_max : List ℚ, turbulent_selected Re_max = false) ∧
    corr_branch [2000, 3000] = CorrBranch.laminar ∧
    corr_m [2000, 3000] = 0.5 ∧
    (([2000, 3000] : List ℚ).all fun x => decide ((1000 : ℚ) < x)) = true := by
  have hall : ∀ Re_max : List ℚ, turbulent_selected Re_max = false := by
    intro Re
    simp only [turbulent_selected, pyBoolFloat, decide_eq_false_iff_not, not_lt]
    split_ifs <;> norm_num
  refine ⟨hall, ?_, ?_, ?_⟩
  · simp [corr_branch, hall]
  · simp [corr_m, hall]
  · norm_num

/-- C6 counterexample: with map sample `V_ul = [3]`, Thevenin voltage
`V_Th = [1]`, cell current `[1]`, aged resistance `[1]`, final SOC `[1/2]`
and 2 series cells, the code's `voltage_under_load` output is `[6]` — the raw
map sample scaled — while the sum sample + Thevenin + ohmic drop scaled by the
series count is `[10]`, which the code outputs as `voltage_open_circuit`. -/
theorem C6_counterexample :
    voltage_under_load_def [3] [1/2] 2 = [6] ∧
    voltage_open_circuit_def [3] [1] [1] [1] 2 = [10] ∧
    ([6] : List ℚ) ≠ [10] := by
  refine ⟨?_, ?_, ?_⟩
  · norm_num [voltage_under_load_def, V_ul_masked]
  · norm_num [voltage_open_circuit_def, V_oc_def]
  · simp

/-- C6 (amended): the sum map-sample + Thevenin voltage + `I_cell*R_0_aged`
(line 211) is output, scaled by the series-cell count, as
`voltage_open_circuit` (line 252); the `voltage_under_load` output (line 262)
is the raw discharge-map sample, zeroed where `SOC_new < 0` (line 241) and
scaled by the series-cell count. -/
theorem C6_voltage_outputs (V_ul V_Th I_cell R_0_aged SOC_new : List ℚ)
    (n_series : ℚ) (i : ℕ) (h1 : i < V_ul.length) (h2 : i < V_Th.length)
    (h3 : i < I_cell.length) (h4 : i < R_0_aged.length) (h5 : i < SOC_new.length) :
    (voltage_open_circuit_def V_ul V_Th I_cell R_0_aged n_series).getD i 0 =
      (V_ul.getD i 0 + V_Th.getD i 0 + I_cell.getD i 0 * R_0_aged.getD i 0) *
        n_series ∧
    (voltage_under_load_def V_ul SOC_new n_series).getD i 0 =
      (if SOC_new.getD i 0 < 0 then 0 else V_ul.getD i 0) * n_series := by
  have lou : i < (voltage_open_circuit_def V_ul V_Th I_cell R_0_aged n_series).length := by
    simp only [voltage_open_circuit_def, V_oc_def, List.length_map, List.length_zipWith]
    omega
  have lul : i < (voltage_under_load_def V_ul SOC_new n_series).length := by
    simp only [voltage_under_load_def, V_ul_masked, List.length_map, List.length_zipWith]
    omega
  constructor
  · rw [List.getD_eq_getElem _ _ lou, List.getD_eq_getElem _ _ h1,
      List.getD_eq_getElem _ _ h2, List.getD_eq_getElem _ _ h3,
      List.getD_eq_getElem _ _ h4]
    simp [voltage_open_circuit_def, V_oc_def]
  · rw [List.getD_eq_getElem _ _ lul, List.getD_eq_getElem _ _ h1,
      List.getD_eq_getElem _ _ h5]
    simp [voltage_under_load_def, V_ul_masked]

/-- C6 witness: the amended voltage-output theorem at a concrete input. -/
theorem C6_voltage_outputs_witness :
    (voltage_open_circuit_def [3] [1] [1] [1] 2).getD 0 0 =
      (([3] : List ℚ).getD 0 0 + ([1] : List ℚ).getD 0 0 +
        ([1] : List ℚ).getD 0 0 * ([1] : List ℚ).getD 0 0) * 2 ∧
    (voltage_under_load_def [3] [1/2] 2).getD 0 0 =
      (if ([1/2] : List ℚ).getD 0 0 < 0 then 0 else ([3] : List ℚ).getD 0 0) * 2 :=
  C6_voltage_outputs [3] [1] [1] [1] [1/2] 2 0 (by norm_num) (by norm_num)
    (by norm_num) (by norm_num) (by norm_num)

/-- C8: at an input whose updated energy is −100 J with `max_energy` 100 J,
the raw final SOC −1 is negative (non-physical), yet the under-load voltage
sample is left untouched at 3 V: line 241 `V_ul[SOC_new < 0.] = 0.` tests
`SOC_new` only *after* lines 232-233 clamped it to [0,1], so the mask never
fires and the voltage is never zeroed. -/
theorem C8_negative_soc_voltage_code_eval :
    ((-100 : ℚ) / 100 < 0) ∧
    SOC_new_def [-100] 100 = [0] ∧
    V_ul_masked [3] (SOC_new_def [-100] 100) = [3] := by
  refine ⟨by norm_num, ?_, ?_⟩
  · norm_num [SOC_new_def, clamp01]
  · norm_num [V_ul_masked, SOC_new_def, clamp01]

/-- C2: evaluating `compute_thevenin_votlage` at constant cell current
I = 1 A and fixed R_Th = 1 Ω, C_Th = 1 F (time constant τ = R·C = 1 s) at
every collocation point, over the times [0, 5/2, 5] — a span of 5 time
constants — starting from `V_th0 = 0`.  The analytic steady state is
I·R = 1 V and the closed-form solution at 5 time constants is within 1% of
it, but the loop keeps `z[1]` (the solution at `t[1]`) for every `i`, so all
output points after the first equal 1 − exp(−5/2) and the final value misses
the steady state by exp(−5/2) ≈ 8.2%, outside the claimed 1%. -/
theorem C2_thevenin_code_eval :
    (compute_thevenin_votlage 0 [1, 1, 1] [1, 1, 1] [1, 1, 1]
        [0, 5/2, 5]).getD 2 0 = 1 - Real.exp (-(5/2)) ∧
    (compute_thevenin_votlage 0 [1, 1, 1] [1, 1, 1] [1, 1, 1]
        [0, 5/2, 5]).getD 1 0 =
      (compute_thevenin_votlage 0 [1, 1, 1] [1, 1, 1] [1, 1, 1]
        [0, 5/2, 5]).getD 2 0 ∧
    1/100 < |(1 - Real.exp (-(5/2))) - 1 * 1| := by
  have hr : List.range 3 = [0, 1, 2] := rfl
  have hx : compute_thevenin_votlage 0 [1, 1, 1] [1, 1, 1] [1, 1, 1]
      [0, 5/2, 5] = [0, 1 - Real.exp (-(5/2)), 1 - Real.exp (-(5/2))] := by
    rw [compute_thevenin_votlage]
    norm_num [hr, odeint_sample]
    ring
  have hexp : Real.exp (5/2 : ℝ) < 100 := by
    have h1 : Real.exp (5/2 : ℝ) ≤ Real.exp 3 := Real.exp_le_exp.mpr (by norm_num)
    have h2 : Real.exp (3 : ℝ) = Real.exp 1 ^ (3 : ℕ) := by
      rw [show (3 : ℝ) = ((3 : ℕ) : ℝ) * 1 by norm_num, Real.exp_nat_mul]
    have h3 := Real.exp_one_lt_d9
    have h4 := (Real.exp_pos 1).le
    have h5 : Real.exp 1 ^ (3 : ℕ) < (2.7182818286 : ℝ) ^ (3 : ℕ) := by
      gcongr
    have h6 : (2.7182818286 : ℝ) ^ (3 : ℕ) < 100 := by norm_num
    linarith
  refine ⟨by rw [hx]; rfl, by rw [hx]; rfl, ?_⟩
  have habs : |(1 - Real.exp (-(5/2 : ℝ))) - 1 * 1| = Real.exp (-(5/2 : ℝ)) := by
    rw [show (1 - Real.exp (-(5/2 : ℝ))) - 1 * 1 = -Real.exp (-(5/2 : ℝ)) by ring,
      abs_neg, abs_of_pos (Real.exp_pos _)]
  rw [habs, Real.exp_neg, inv_eq_one_div, lt_div_iff₀ (Real.exp_pos _)]
  linarith

/-- Entries produced by the masked clamp of lines 183-184 lie in [0 A, 8 A]. -/
theorem clamp_I_cell_mem (I_cell : List ℚ) :
    ∀ v ∈ clamp_I_cell I_cell, 0 ≤ v ∧ v ≤ 8 := by
  intro v hv
  simp only [clamp_I_cell, List.map_map, List.mem_map, Function.comp] at hv
  obtain ⟨x, -, rfl⟩ := hv
  by_cases h1 : x < 0
  · rw [if_pos h1]
    norm_num
  · rw [if_neg h1]
    by_cases h2 : (8 : ℚ) < x
    · rw [if_pos h2]
      norm_num
    · rw [if_neg h2]
      exact ⟨le_of_not_lt h1, le_of_not_lt h2⟩

/-- Trapezoid increments over a nondecreasing abscissa and a nonnegative
integrand are nonnegative. -/
theorem trapzIncs_nonneg : ∀ t f : List ℚ, List.Chain' (· ≤ ·) t →
    (∀ v ∈ f, 0 ≤ v) → ∀ y ∈ trapzIncs t f, 0 ≤ y := by
  intro t
  induction t with
  | nil =>
    intro f _ _ y hy
    simp [trapzIncs] at hy
  | cons t0 ts ih =>
    intro f hchain hf y hy
    cases ts with
    | nil => simp [trapzIncs] at hy
    | cons t1 ts' =>
      cases f with
      | nil => simp [trapzIncs] at hy
      | cons f0 f' =>
        cases f' with
        | nil => simp [trapzIncs] at hy
        | cons f1 fs =>
          simp only [trapzIncs, List.mem_cons] at hy
          rcases hy with rfl | hy
          · have ht : t0 ≤ t1 := (List.chain'_cons.mp hchain).1
            have hf0 : 0 ≤ f0 := hf f0 (by simp)
            have hf1 : 0 ≤ f1 := hf f1 (by simp)
            have hm : 0 ≤ (t1 - t0) * (f0 + f1) := by nlinarith
            linarith
          · exact ih (f1 :: fs) (List.chain'_cons.mp hchain).2
              (fun v hv => hf v (List.mem_cons_of_mem _ hv)) y hy

/-- Cumulative sums of a nonnegative list never drop below the accumulator
and are nondecreasing. -/
theorem cumsumFrom_bounds (xs : List ℚ) : ∀ acc : ℚ, (∀ x ∈ xs, 0 ≤ x) →
    (∀ y ∈ cumsumFrom acc xs, acc ≤ y) ∧
      List.Chain' (· ≤ ·) (cumsumFrom acc xs) := by
  induction xs with
  | nil =>
    intro acc _
    simp [cumsumFrom]
  | cons x xs ih =>
    intro acc h
    have hx : 0 ≤ x := h x (by simp)
    have h' : ∀ y ∈ xs, 0 ≤ y := fun y hy => h y (List.mem_cons_of_mem _ hy)
    obtain ⟨ih1, ih2⟩ := ih (acc + x) h'
    constructor
    · intro y hy
      simp only [cumsumFrom, List.mem_cons] at hy
      rcases hy with rfl | hy
      · linarith
      · have := ih1 y hy
        linarith
    · rw [cumsumFrom]
      refine List.chain'_cons'.mpr ⟨?_, ih2⟩
      intro b hb
      exact ih1 b (List.mem_of_mem_head? hb)

/-- C10: the per-cell current fed to the performance-map lookup, the Thevenin
integration and the charge-throughput integration is `-I_bat/n_parallel`
clamped into [0 A, 8 A] (lines 183-184); consequently, over nondecreasing
collocation times, the cumulative charge throughput `Q_total` of line 237
starts at `Q_prior[0]` and is nondecreasing. -/
theorem C10_cell_current_clamp_and_throughput (I_bat : List ℚ) (n_parallel : ℚ)
    (t : List ℚ) (Q_prior0 : ℚ) :
    (∀ v ∈ clamp_I_cell (I_cell_def I_bat n_parallel), 0 ≤ v ∧ v ≤ 8) ∧
    (List.Chain' (· ≤ ·) t →
      (Q_total_def Q_prior0 (clamp_I_cell (I_cell_def I_bat n_parallel)) t).head? =
        some Q_prior0 ∧
      List.Chain' (· ≤ ·)
        (Q_total_def Q_prior0 (clamp_I_cell (I_cell_def I_bat n_parallel)) t)) := by
  refine ⟨clamp_I_cell_mem _, fun hchain => ⟨rfl, ?_⟩⟩
  have hf : ∀ v ∈ clamp_I_cell (I_cell_def I_bat n_parallel), 0 ≤ v :=
    fun v hv => (clamp_I_cell_mem _ v hv).1
  have hincs : ∀ y ∈ trapzIncs t (clamp_I_cell (I_cell_def I_bat n_parallel)), 0 ≤ y :=
    trapzIncs_nonneg t _ hchain hf
  obtain ⟨hge, hch⟩ := cumsumFrom_bounds _ 0 hincs
  rw [Q_total_def]
  refine List.chain'_cons'.mpr ⟨?_, ?_⟩
  · intro b hb
    have hb' := List.mem_of_mem_head? hb
    simp only [List.mem_map] at hb'
    obtain ⟨q, hq, rfl⟩ := hb'
    have h0q : (0 : ℚ) ≤ q := hge q hq
    have hdiv : (0 : ℚ) ≤ q / 3600 := by positivity
    linarith
  · rw [List.chain'_map]
    refine List.Chain'.imp ?_ hch
    intro a b hab
    linarith

/-- C10 witness: the clamp bounds and throughput monotonicity at pack current
[−2, −4] A, one parallel cell, collocation times [0, 1]. -/
theorem C10_cell_current_clamp_and_throughput_witness :
    ((0 : ℚ) ≤ 2 ∧ (2 : ℚ) ≤ 8) ∧
    ((Q_total_def 0 (clamp_I_cell (I_cell_def [-2, -4] 1)) [0, 1]).head? =
      some 0 ∧
    List.Chain' (· ≤ ·)
      (Q_total_def 0 (clamp_I_cell (I_cell_def [-2, -4] 1)) [0, 1])) :=
  ⟨(C10_cell_current_clamp_and_throughput [-2, -4] 1 [0, 1] 0).1 2
      (by norm_num [clamp_I_cell, I_cell_def]),
    (C10_cell_current_clamp_and_throughput [-2, -4] 1 [0, 1] 0).2
      (by norm_num [List.chain'_cons])⟩

/-- C9 witness: the DOD identity at a concrete input, at collocation point 0. -/
theorem C9_dod_eq_one_sub_soc_witness :
    (DOD_old_def [[1]] [5] 0 1).getD 0 0 =
      1 - (SOC_old_def [[1]] [5] 0 1).getD 0 0 ∧
    (DOD_new_def [3] 1).getD 0 0 = 1 - (SOC_new_def [3] 1).getD 0 0 :=
  C9_dod_eq_one_sub_soc [[1]] [5] 0 1 [3] 0 0
    (by norm_num [SOC_old_def, clamp01, matVec, dotQ])
    (by norm_num [SOC_new_def, clamp01])

end SUAVE
